import Mathlib

/-!
Verification of the email scheduling core of the repository: a shallow
embedding of src/email_scheduler/core/scheduler_manager.py together with the
schedule settings of src/email_scheduler/core/config_manager.py.

Conventions of the embedding:
* Calendar time is measured in whole minutes since an epoch that falls on a
  Monday at 00:00.  A datetime value t therefore has calendar day t / 1440
  and weekday (t / 1440) % 7, with 0 = Monday, ..., 5 = Saturday, 6 = Sunday,
  matching the weekday() convention of Python.
* The source stores start_time as a string "HH:MM" and parses it into the
  hour and minute with map(int, ...split...); the embedding carries the two
  parsed numbers start_hour and start_minute directly.
* uuid identifiers are opaque tokens; the embedding passes fresh identifiers
  as explicit Nat parameters (or fixes them to 0 where no claim depends on
  them).
* The metadata dictionary of a batch is embedded as optional fields.
* datetime.now() is passed explicitly (the today and now parameters).
* The two unbounded while loops of _generate_batches are embedded with an
  explicit fuel argument (the source loops diverge for degenerate settings
  such as emails_per_batch = 0, where Python instead raises
  ZeroDivisionError when computing max_daily_batches); a sufficiency lemma
  shows the fuel chosen in generate_batches never runs out for valid
  settings.
-/

namespace EmailScheduler

/-- Record of the source dataclass EmailBatch of scheduler_manager.py.
Times are minutes since the Monday-midnight epoch, the metadata dictionary
is embedded as the meta_ fields, and the uuid batch identifier is an opaque
Nat. -/
structure EmailBatch where
  batch_id : Nat
  emails : List String
  subject : String
  body : String
  attachments : List String
  scheduled_time : Nat
  status : String := "pending"
  created_time : Nat := 0
  sent_time : Option Nat := none
  attempts : Nat := 0
  error_message : Option String := none
  meta_is_retry : Bool := false
  meta_original_batch_id : Option Nat := none
  meta_retry_attempt : Option Nat := none
  meta_day_batch_number : Option Nat := none
  meta_total_day_batches : Option Nat := none
  meta_emails_in_batch : Option Nat := none
deriving Repr, DecidableEq

/-- Record of the source dataclass ScheduleSettings of scheduler_manager.py,
with its source default values.  start_time "06:00" is carried as the parsed
pair start_hour = 6, start_minute = 0; end_time is kept verbatim since the
source never parses it. -/
structure ScheduleSettings where
  emails_per_day : Nat := 499
  emails_per_batch : Nat := 10
  start_hour : Nat := 6
  start_minute : Nat := 0
  end_time : String := "18:00"
  working_days_only : Bool := true
  batch_interval_minutes : Nat := 5
  retry_failed_batches : Bool := true
  max_retry_attempts : Nat := 3
  retry_delay_hours : Nat := 1
deriving Repr, DecidableEq

/-- Record of the distinct dataclass ScheduleSettings of config_manager.py
(the settings object returned by config_manager.get_schedule_settings(),
which the retry path of scheduler_manager.py actually consults), with its
source default values. -/
structure ConfigScheduleSettings where
  emails_per_day : Nat := 499
  emails_per_batch : Nat := 10
  start_hour : Nat := 6
  start_minute : Nat := 0
  working_days_only : Bool := true
  retry_failed_emails : Bool := true
  retry_attempts : Nat := 3
  retry_delay_minutes : Nat := 30
  batch_delay_minutes : Nat := 2
deriving Repr, DecidableEq

/-- The daily recipient total counted by the inner while loop guard of
_generate_batches: len([email for batch in batches if
batch.scheduled_time.date() == current_date.date() for email in
batch.emails]). -/
def dayEmails (batches : List EmailBatch) (day : Nat) : Nat :=
  ((batches.filter fun b => b.scheduled_time / 1440 = day).map
    fun b => b.emails.length).sum

/-- _get_next_working_day: tomorrow at midnight, then while weekday() >= 5
advance one day.  The while loop runs at most twice (Saturday, Sunday), so
it is unfolded into two conditional steps. -/
def getNextWorkingDay (today : Nat) : Nat :=
  let next := today + 1
  if 5 ≤ next % 7 then
    (if 5 ≤ (next + 1) % 7 then next + 2 else next + 1)
  else next

/-- The inner while loop of _generate_batches for one calendar day: while
recipients remain, fewer than max_daily_batches batches were made today, and
the daily recipient total is below emails_per_day, slice the next
emails_per_batch recipients into a batch scheduled at current_time, then
advance current_time by batch_interval_minutes.  Arguments after day:
fuel, current_time, daily_batches, remaining recipients, batches so far.
Returns the grown batch list and the recipients still unassigned. -/
def genInner (s : ScheduleSettings) (subject body : String)
    (attachments : List String) (day : Nat) :
    Nat → Nat → Nat → List String → List EmailBatch →
    List EmailBatch × List String
  | 0, _, _, remaining, batches => (batches, remaining)
  | fuel + 1, current_time, daily_batches, remaining, batches =>
    if remaining ≠ [] ∧
        daily_batches < s.emails_per_day / s.emails_per_batch ∧
        dayEmails batches day < s.emails_per_day then
      let batch_emails := remaining.take s.emails_per_batch
      let batch : EmailBatch :=
        { batch_id := 0, emails := batch_emails, subject := subject,
          body := body, attachments := attachments,
          scheduled_time := current_time,
          meta_day_batch_number := some (daily_batches + 1),
          meta_total_day_batches :=
            some (s.emails_per_day / s.emails_per_batch),
          meta_emails_in_batch := some batch_emails.length }
      genInner s subject body attachments day fuel
        (current_time + s.batch_interval_minutes) (daily_batches + 1)
        (remaining.drop s.emails_per_batch) (batches ++ [batch])
    else (batches, remaining)

/-- The outer while loop of _generate_batches: while recipients remain,
skip the day when working_days_only and the weekday is Saturday or Sunday,
otherwise run the inner day loop starting at start_time of the day, then
advance to the next day. -/
def genOuter (s : ScheduleSettings) (subject body : String)
    (attachments : List String) :
    Nat → Nat → List String → List EmailBatch → List EmailBatch
  | 0, _, _, batches => batches
  | fuel + 1, current_date, remaining, batches =>
    if remaining = [] then batches
    else if s.working_days_only = true ∧ 5 ≤ current_date % 7 then
      genOuter s subject body attachments fuel (current_date + 1)
        remaining batches
    else
      let res := genInner s subject body attachments current_date
        (s.emails_per_day / s.emails_per_batch)
        (current_date * 1440 + (s.start_hour * 60 + s.start_minute)) 0
        remaining batches
      genOuter s subject body attachments fuel (current_date + 1)
        res.2 res.1

/-- _generate_batches: anchor at the next working day after today and run
the day loop until every recipient is assigned.  The fuel
3 * emails.length + 3 is shown sufficient for valid settings (each
non-skipped day consumes at least one recipient and at most two consecutive
days are skipped). -/
def generate_batches (emails : List String) (subject body : String)
    (attachments : List String) (s : ScheduleSettings) (today : Nat) :
    List EmailBatch :=
  genOuter s subject body attachments (3 * emails.length + 3)
    (getNextWorkingDay today) emails []

/-- Concatenation of the recipient lists of a batch list, in batch order. -/
def emailsOf (batches : List EmailBatch) : List String :=
  (batches.map fun b => b.emails).flatten

/-- The failure update of execute_batch in _schedule_batch: on a failed
dispatch the batch status becomes failed, the error message is recorded and
the attempt counter is incremented. -/
def failedBatchUpdate (errMsg : String) (b : EmailBatch) : EmailBatch :=
  { b with
    status := "failed",
    error_message := some errMsg,
    attempts := b.attempts + 1 }

/-- _schedule_retry: builds the replacement batch for a failed batch b,
cloning recipients and content, scheduled at now +
config.retry_delay_minutes, carrying attempts = b.attempts (the counter
already incremented by the failure update) and metadata linking to the
original batch id.  cfg is the settings object of
config_manager.get_schedule_settings(). -/
def scheduleRetry (cfg : ConfigScheduleSettings) (now newId : Nat)
    (b : EmailBatch) : EmailBatch :=
  { batch_id := newId, emails := b.emails, subject := b.subject,
    body := b.body, attachments := b.attachments,
    scheduled_time := now + cfg.retry_delay_minutes,
    created_time := now, attempts := b.attempts,
    meta_is_retry := true, meta_original_batch_id := some b.batch_id,
    meta_retry_attempt := some b.attempts }

/-- The retry guard of execute_batch (lines 352 to 354 of
scheduler_manager.py): a retry batch is produced exactly when the config
manager settings enable retries and the (already incremented) attempt
counter of the failed batch is below config.retry_attempts. -/
def retryDecision (cfg : ConfigScheduleSettings) (now newId : Nat)
    (b : EmailBatch) : Option EmailBatch :=
  if cfg.retry_failed_emails = true ∧ b.attempts < cfg.retry_attempts then
    some (scheduleRetry cfg now newId b)
  else none

/-- The whole failure branch of execute_batch: mark the batch failed and
consult the retry guard.  Returns the failed batch in its final state and
the optional replacement batch. -/
def handleBatchFailure (cfg : ConfigScheduleSettings) (now newId : Nat)
    (errMsg : String) (b : EmailBatch) : EmailBatch × Option EmailBatch :=
  let fb := failedBatchUpdate errMsg b
  (fb, retryDecision cfg now newId fb)

/-- The chain of failed batches obtained by dispatching b and every
replacement batch it spawns, when every dispatch fails: each element is a
batch in its final failed state, in dispatch order.  The fuel argument
bounds the recursion; retryChainFuel is always called with fuel larger than
cfg.retry_attempts, which a lemma shows sufficient. -/
def retryChainFuel (cfg : ConfigScheduleSettings) (now newId : Nat)
    (errMsg : String) : Nat → EmailBatch → List EmailBatch
  | 0, _ => []
  | fuel + 1, b =>
    match handleBatchFailure cfg now newId errMsg b with
    | (fb, some rb) => fb :: retryChainFuel cfg now newId errMsg fuel rb
    | (fb, none) => [fb]

/-- The failure chain of a batch with the canonical sufficient fuel. -/
def retryChain (cfg : ConfigScheduleSettings) (now newId : Nat)
    (errMsg : String) (b : EmailBatch) : List EmailBatch :=
  retryChainFuel cfg now newId errMsg (cfg.retry_attempts + 1) b

/-- Snapshot of the schedule dictionary built by create_schedule. -/
structure ScheduleData where
  schedule_id : Nat
  created_time : Nat := 0
  settings : ScheduleSettings
  batches : List EmailBatch
  subject : String
  body : String
  attachments : List String
  total_emails : Nat
  status : String
deriving Repr, DecidableEq

/-- Record of the source dataclass ScheduleResult of scheduler_manager.py.
The datetime fields are minutes since the epoch. -/
structure ScheduleResult where
  success : Bool
  message : String
  total_batches : Nat := 0
  total_days : Nat := 0
  start_date : Option Nat := none
  end_date : Option Nat := none
  schedule_id : Option Nat := none
deriving Repr, DecidableEq

/-- The mutable state of SchedulerManager: the current schedule, the three
batch collections, the running flag, the persisted snapshots (the files
written by _save_schedule) and the statistics counter the claims mention. -/
structure SchedulerState where
  current_schedule : Option ScheduleData := none
  schedule_history : List ScheduleData := []
  active_batches : List EmailBatch := []
  completed_batches : List EmailBatch := []
  failed_batches : List EmailBatch := []
  is_running : Bool := false
  saved_schedules : List ScheduleData := []
  stats_total_schedules_created : Nat := 0
deriving Repr, DecidableEq

/-- create_schedule: reject an empty recipient list, then an all-whitespace
subject, then generate the batches; on success install the schedule as
current, set the batches active, persist the snapshot and bump the
statistics.  newId stands for the fresh uuid. -/
def create_schedule (st : SchedulerState) (emails : List String)
    (subject body : String) (attachments : List String)
    (s : ScheduleSettings) (today : Nat) (newId : Nat) :
    ScheduleResult × SchedulerState :=
  if emails = [] then
    ({ success := false, message := "No emails provided for scheduling" }, st)
  else if subject.trim = "" then
    ({ success := false, message := "Email subject cannot be empty" }, st)
  else
    let batches := generate_batches emails subject body attachments s today
    if batches = [] then
      ({ success := false, message := "Failed to generate email batches" }, st)
    else
      let times := batches.map fun b => b.scheduled_time
      let start_date := times.min?.getD 0
      let end_date := times.max?.getD 0
      let sd : ScheduleData :=
        { schedule_id := newId, settings := s, batches := batches,
          subject := subject, body := body, attachments := attachments,
          total_emails := emails.length, status := "created" }
      ({ success := true,
         message := "Schedule created with " ++ toString batches.length ++
           " batches",
         total_batches := batches.length,
         total_days := end_date / 1440 - start_date / 1440 + 1,
         start_date := some start_date, end_date := some end_date,
         schedule_id := some newId },
       { st with
         current_schedule := some sd,
         active_batches := batches,
         saved_schedules := st.saved_schedules ++ [sd],
         stats_total_schedules_created :=
           st.stats_total_schedules_created + 1 })

/-- stop_schedule: a no-op returning False when nothing is running;
otherwise clear the running flag, mark the current schedule stopped, turn
every remaining active batch into a cancelled batch appended to
failed_batches, and empty the active list.  (Clearing the trigger library
and joining the polling thread have no observable effect on this state.) -/
def stop_schedule (st : SchedulerState) : Bool × SchedulerState :=
  if st.is_running = false then (false, st)
  else
    (true,
     { st with
       is_running := false,
       current_schedule :=
         st.current_schedule.map fun sd => { sd with status := "stopped" },
       failed_batches :=
         st.failed_batches ++
           st.active_batches.map fun b => { b with status := "cancelled" },
       active_batches := [] })

/-- The counts returned by get_current_schedule_status (the
progress_percentage float and the next_batch preview of the source carry no
information the claims need beyond these counts and are omitted). -/
structure StatusSnapshot where
  status : String
  schedule_id : Nat
  total_batches : Nat
  completed_batches : Nat
  failed_batches : Nat
  pending_batches : Nat
  total_emails : Nat
  is_running : Bool
deriving Repr, DecidableEq

/-- get_current_schedule_status: none models the bare no_schedule
dictionary returned when no schedule is current; otherwise the counts are
taken from the three batch collections (cancelled batches live inside
failed_batches and are not reported separately). -/
def get_current_schedule_status (st : SchedulerState) :
    Option StatusSnapshot :=
  match st.current_schedule with
  | none => none
  | some sd =>
    some { status := sd.status, schedule_id := sd.schedule_id,
           total_batches := st.completed_batches.length +
             st.failed_batches.length + st.active_batches.length,
           completed_batches := st.completed_batches.length,
           failed_batches := st.failed_batches.length,
           pending_batches := st.active_batches.length,
           total_emails := sd.total_emails,
           is_running := st.is_running }

/-- The config manager schedule settings with their source defaults. -/
def defaultConfig : ConfigScheduleSettings := {}

/-- The scheduler manager schedule settings with their source defaults. -/
def defaultScheduleSettings : ScheduleSettings := {}

/-- Twenty-five distinct recipient addresses for the concrete example of
the spec. -/
def sampleRecipients : List String := (List.range 25).map toString

/-- The settings of the concrete example: emails_per_day = 10,
emails_per_batch = 5, start_time 09:00, batch_interval 5 minutes,
working_days_only false. -/
def exampleSettings : ScheduleSettings :=
  { emails_per_day := 10, emails_per_batch := 5, start_hour := 9,
    start_minute := 0, working_days_only := false,
    batch_interval_minutes := 5 }

/-- A never-dispatched batch: attempts = 0, as produced by the planner. -/
def freshFailingBatch : EmailBatch :=
  { batch_id := 1, emails := ["a@example.com"], subject := "s", body := "b",
    attachments := [], scheduled_time := 0 }

/-- A batch in the state _schedule_retry receives it: status failed and the
attempt counter already incremented once by the failure update. -/
def failedB : EmailBatch :=
  { batch_id := 5, emails := ["x@example.com"], subject := "s", body := "b",
    attachments := [], scheduled_time := 0, status := "failed",
    attempts := 1, error_message := some "err" }

/-- A failed batch whose attempt counter has reached retry_attempts. -/
def exhaustedB : EmailBatch :=
  { batch_id := 7, emails := ["x@example.com"], subject := "s", body := "b",
    attachments := [], scheduled_time := 0, status := "failed",
    attempts := 3, error_message := some "err" }

/-- A sent batch for the concrete stop scenario. -/
def sentB : EmailBatch :=
  { batch_id := 11, emails := ["a"], subject := "s", body := "b",
    attachments := [], scheduled_time := 100, status := "sent" }

/-- A terminally failed batch for the concrete stop scenario. -/
def failB : EmailBatch :=
  { batch_id := 12, emails := ["c"], subject := "s", body := "b",
    attachments := [], scheduled_time := 200, status := "failed",
    attempts := 3 }

/-- A pending batch for the concrete stop scenario. -/
def pendB : EmailBatch :=
  { batch_id := 13, emails := ["d"], subject := "s", body := "b",
    attachments := [], scheduled_time := 300 }

/-- The schedule snapshot of the concrete stop scenario. -/
def sdEx : ScheduleData :=
  { schedule_id := 1, settings := {}, batches := [], subject := "s",
    body := "b", attachments := [], total_emails := 3, status := "running" }

/-- A running scheduler state holding one pending, one sent and one failed
batch. -/
def stEx : SchedulerState :=
  { current_schedule := some sdEx, active_batches := [pendB],
    completed_batches := [sentB], failed_batches := [failB],
    is_running := true }

/-- Ten recipients for the weekend scenarios. -/
def tenRecipients : List String := (List.range 10).map toString

/-- Settings whose start time 23:59 pushes the second batch of a day past
midnight: emails_per_day = 10, emails_per_batch = 5 (so two batches per
day), batch interval 5 minutes, working_days_only = true. -/
def lateSettings : ScheduleSettings :=
  { emails_per_day := 10, emails_per_batch := 5, start_hour := 23,
    start_minute := 59, working_days_only := true,
    batch_interval_minutes := 5 }

/-- Weekend-respecting settings that stay inside the day: start 09:00,
two batches of five per day, 5 minute interval. -/
def weekdaySettings : ScheduleSettings :=
  { emails_per_day := 10, emails_per_batch := 5, start_hour := 9,
    start_minute := 0, working_days_only := true,
    batch_interval_minutes := 5 }

/-- A placeholder batch used to project the head of a concrete batch
list. -/
def dummyBatch : EmailBatch :=
  { batch_id := 0, emails := [], subject := "", body := "",
    attachments := [], scheduled_time := 0 }

/-- The minute of the day the parsed start time denotes. -/
def startMinutes (s : ScheduleSettings) : Nat :=
  s.start_hour * 60 + s.start_minute

/-- max_daily_batches of _generate_batches: floor division of the daily
cap by the batch cap. -/
def maxDailyBatches (s : ScheduleSettings) : Nat :=
  s.emails_per_day / s.emails_per_batch

/-- A batch carries tag (c, k) when it is the k-th batch (zero based) that
the inner day loop of day c creates: its scheduled time is start minute of
day c plus k batch intervals, its day_batch_number metadata is k + 1, k is
below max_daily_batches and its recipient slice is bounded by
emails_per_batch. -/
def BatchTag (s : ScheduleSettings) (b : EmailBatch) (c k : Nat) : Prop :=
  k < maxDailyBatches s ∧
  b.scheduled_time =
    c * 1440 + startMinutes s + k * s.batch_interval_minutes ∧
  b.meta_day_batch_number = some (k + 1) ∧
  b.emails.length ≤ s.emails_per_batch

/-- No two batches of the list agree on both scheduled time and
day_batch_number metadata: distinct creation slots give distinct pairs. -/
def TagDisjoint (acc : List EmailBatch) : Prop :=
  acc.Pairwise fun b b2 =>
    ¬(b.scheduled_time = b2.scheduled_time ∧
      b.meta_day_batch_number = b2.meta_day_batch_number)

/-- Invariant of the inner day loop at day and counter daily: every batch
accumulated so far is tagged by an earlier day, or by the current day with
a smaller counter, and the tags are pairwise distinct. -/
def InnerInv (s : ScheduleSettings) (day daily : Nat)
    (acc : List EmailBatch) : Prop :=
  (∀ b ∈ acc, ∃ c k, BatchTag s b c k ∧ (c < day ∨ (c = day ∧ k < daily))) ∧
  TagDisjoint acc

/-- Invariant of the outer day loop: every accumulated batch is tagged by a
day strictly before the current one. -/
def OuterInv (s : ScheduleSettings) (day : Nat)
    (acc : List EmailBatch) : Prop :=
  InnerInv s day 0 acc

/-- Invariant of the finished plan: every batch is tagged, tags pairwise
distinct. -/
def FinalInv (s : ScheduleSettings) (acc : List EmailBatch) : Prop :=
  (∀ b ∈ acc, ∃ c k, BatchTag s b c k) ∧ TagDisjoint acc

/-- Number of days the outer loop may skip before the next working day:
two from a Saturday, one from a Sunday, none otherwise. -/
def weekendPad (day : Nat) : Nat :=
  if day % 7 = 5 then 2 else if day % 7 = 6 then 1 else 0

/-- emailsOf distributes over append. -/
theorem emailsOf_append (l1 l2 : List EmailBatch) :
    emailsOf (l1 ++ l2) = emailsOf l1 ++ emailsOf l2 := by
  simp [emailsOf]

/-- The calendar day of a minute that lies x minutes into day c. -/
theorem day_of_time (c x : Nat) : (c * 1440 + x) / 1440 = c + x / 1440 := by
  omega

/-- Mapping a list by a function that separates related elements yields a
nodup list, provided the list is pairwise related. -/
theorem nodup_map_of_pairwiseR {α β : Type} (f : α → β) (R : α → α → Prop)
    (l : List α) (hpw : l.Pairwise R)
    (h : ∀ a ∈ l, ∀ b ∈ l, R a b → f a ≠ f b) : (l.map f).Nodup := by
  induction l with
  | nil => simp
  | cons a t ih =>
    rw [List.pairwise_cons] at hpw
    simp only [List.map_cons, List.nodup_cons]
    refine ⟨?_, ih hpw.2 fun a2 ha2 b2 hb2 hr =>
      h a2 (by simp [ha2]) b2 (by simp [hb2]) hr⟩
    intro hmem
    obtain ⟨x, hx, hfx⟩ := List.mem_map.mp hmem
    exact h a (by simp) x (by simp [hx]) (hpw.1 x hx) hfx.symm

/-- A nodup list of numbers lying between lo and hi has at most
hi + 1 - lo elements. -/
theorem length_le_of_nodup_bounded (l : List Nat) (lo hi : Nat)
    (hnd : l.Nodup) (h : ∀ x ∈ l, lo ≤ x ∧ x ≤ hi) :
    l.length ≤ hi + 1 - lo := by
  have hsub : l.toFinset ⊆ Finset.Icc lo hi := by
    intro x hx
    rw [List.mem_toFinset] at hx
    rw [Finset.mem_Icc]
    exact h x hx
  have hcard := Finset.card_le_card hsub
  rw [List.toFinset_card_of_nodup hnd] at hcard
  rwa [Nat.card_Icc] at hcard

/-- A list of numbers bounded by c sums to at most length * c. -/
theorem listSum_le_length_mul (l : List Nat) (c : Nat)
    (h : ∀ x ∈ l, x ≤ c) : l.sum ≤ l.length * c := by
  induction l with
  | nil => simp
  | cons a t ih =>
    simp only [List.sum_cons, List.length_cons]
    have h1 : a ≤ c := h a (by simp)
    have h2 : t.sum ≤ t.length * c := ih fun x hx => h x (by simp [hx])
    calc a + t.sum ≤ c + t.length * c := by omega
    _ = (t.length + 1) * c := by ring

/-- The calendar day of a tagged batch. -/
theorem date_of_tag (s : ScheduleSettings) (b : EmailBatch) (c k : Nat)
    (h : BatchTag s b c k) :
    b.scheduled_time / 1440 =
      c + (startMinutes s + k * s.batch_interval_minutes) / 1440 := by
  rw [h.2.1, show c * 1440 + startMinutes s + k * s.batch_interval_minutes =
    c * 1440 + (startMinutes s + k * s.batch_interval_minutes) from by ring]
  exact day_of_time _ _

/-- At most maxDailyBatches + 1 - lo batches of a tagged, tag-disjoint
list land on any one calendar day D, where lo bounds the possible
day_batch_number values on D from below; hence the day total is bounded by
(maxDailyBatches + 1 - lo) * emails_per_batch. -/
theorem dayEmails_bound (s : ScheduleSettings) (acc : List EmailBatch)
    (D lo : Nat)
    (htags : ∀ b ∈ acc, ∃ c k, BatchTag s b c k)
    (hdisj : TagDisjoint acc)
    (hlo : ∀ b ∈ acc, b.scheduled_time / 1440 = D →
      ∀ c k, BatchTag s b c k → lo ≤ k + 1) :
    dayEmails acc D ≤ (maxDailyBatches s + 1 - lo) * s.emails_per_batch := by
  rw [dayEmails]
  have hmem : ∀ b ∈ acc.filter (fun b => b.scheduled_time / 1440 = D),
      b ∈ acc ∧ b.scheduled_time / 1440 = D := by
    intro b hb
    rw [List.mem_filter] at hb
    exact ⟨hb.1, by simpa using hb.2⟩
  have hpl : (acc.filter (fun b => b.scheduled_time / 1440 = D)).Pairwise
      (fun b b2 => ¬(b.scheduled_time = b2.scheduled_time ∧
        b.meta_day_batch_number = b2.meta_day_batch_number)) :=
    List.Pairwise.sublist (List.filter_sublist _) hdisj
  have hnd : ((acc.filter (fun b => b.scheduled_time / 1440 = D)).map
      (fun b => b.meta_day_batch_number.getD 0)).Nodup := by
    apply nodup_map_of_pairwiseR _ _ _ hpl
    intro a ha b2 hb2 hR hfeq
    obtain ⟨ca, ka, hta⟩ := htags a (hmem a ha).1
    obtain ⟨cb, kb, htb⟩ := htags b2 (hmem b2 hb2).1
    have hfa : a.meta_day_batch_number.getD 0 = ka + 1 := by
      rw [hta.2.2.1]; rfl
    have hfb : b2.meta_day_batch_number.getD 0 = kb + 1 := by
      rw [htb.2.2.1]; rfl
    have hk : ka = kb := by
      rw [hfa, hfb] at hfeq; omega
    subst hk
    have hda := date_of_tag s a ca ka hta
    have hdb := date_of_tag s b2 cb ka htb
    rw [(hmem a ha).2] at hda
    rw [(hmem b2 hb2).2] at hdb
    have hc : ca = cb := by
      have : ca + (startMinutes s + ka * s.batch_interval_minutes) / 1440 =
          cb + (startMinutes s + ka * s.batch_interval_minutes) / 1440 := by
        rw [← hda, ← hdb]
      exact Nat.add_right_cancel this
    subst hc
    have hteq : a.scheduled_time = b2.scheduled_time := by
      rw [hta.2.1, htb.2.1]
    have hmeq : a.meta_day_batch_number = b2.meta_day_batch_number := by
      rw [hta.2.2.1, htb.2.2.1]
    exact hR ⟨hteq, hmeq⟩
  have hbounds : ∀ x ∈ (acc.filter
      (fun b => b.scheduled_time / 1440 = D)).map
      (fun b => b.meta_day_batch_number.getD 0),
      lo ≤ x ∧ x ≤ maxDailyBatches s := by
    intro x hx
    obtain ⟨b, hb, rfl⟩ := List.mem_map.mp hx
    obtain ⟨c, k, ht⟩ := htags b (hmem b hb).1
    have hfx : b.meta_day_batch_number.getD 0 = k + 1 := by
      rw [ht.2.2.1]; rfl
    rw [hfx]
    exact ⟨hlo b (hmem b hb).1 (hmem b hb).2 c k ht, by have := ht.1; omega⟩
  have hlen : (acc.filter (fun b => b.scheduled_time / 1440 = D)).length ≤
      maxDailyBatches s + 1 - lo := by
    have h1 := length_le_of_nodup_bounded _ lo (maxDailyBatches s) hnd hbounds
    rwa [List.length_map] at h1
  have hsizes : ∀ x ∈ (acc.filter
      (fun b => b.scheduled_time / 1440 = D)).map
      (fun b => b.emails.length), x ≤ s.emails_per_batch := by
    intro x hx
    obtain ⟨b, hb, rfl⟩ := List.mem_map.mp hx
    obtain ⟨c, k, ht⟩ := htags b (hmem b hb).1
    exact ht.2.2.2
  calc ((acc.filter (fun b => b.scheduled_time / 1440 = D)).map
        (fun b => b.emails.length)).sum
      ≤ ((acc.filter (fun b => b.scheduled_time / 1440 = D)).map
        (fun b => b.emails.length)).length * s.emails_per_batch :=
        listSum_le_length_mul _ _ hsizes
    _ = (acc.filter (fun b => b.scheduled_time / 1440 = D)).length *
        s.emails_per_batch := by rw [List.length_map]
    _ ≤ (maxDailyBatches s + 1 - lo) * s.emails_per_batch :=
        Nat.mul_le_mul_right _ hlen

/-- Final form of the daily cap: a tagged, tag-disjoint batch list puts at
most maxDailyBatches * emails_per_batch recipients on any calendar day. -/
theorem dayEmails_le_of_final (s : ScheduleSettings) (acc : List EmailBatch)
    (hinv : FinalInv s acc) (D : Nat) :
    dayEmails acc D ≤ maxDailyBatches s * s.emails_per_batch := by
  have h := dayEmails_bound s acc D 1 hinv.1 hinv.2
    (fun b _ _ c k _ => by omega)
  simpa using h

/-- During the outer loop, the day about to be processed carries strictly
fewer than emails_per_day recipients: every batch already on that day
overflowed from an earlier loop day, so its day_batch_number is at least
2, leaving room for at least one more batch. -/
theorem dayEmails_lt_current (s : ScheduleSettings) (acc : List EmailBatch)
    (day : Nat) (hS : startMinutes s < 1440)
    (hepb : 0 < s.emails_per_batch)
    (hle : s.emails_per_batch ≤ s.emails_per_day)
    (hinv : OuterInv s day acc) :
    dayEmails acc day < s.emails_per_day := by
  obtain ⟨htags, hdisj⟩ := hinv
  have htags2 : ∀ b ∈ acc, ∃ c k, BatchTag s b c k := by
    intro b hb
    obtain ⟨c, k, ht, -⟩ := htags b hb
    exact ⟨c, k, ht⟩
  have hlo : ∀ b ∈ acc, b.scheduled_time / 1440 = day →
      ∀ c k, BatchTag s b c k → 2 ≤ k + 1 := by
    intro b hb hdate c k ht
    by_contra hcon
    have hk0 : k = 0 := by omega
    subst hk0
    have hd := date_of_tag s b c 0 ht
    simp only [Nat.zero_mul, Nat.add_zero] at hd
    rw [Nat.div_eq_of_lt hS] at hd
    obtain ⟨c2, k2, ht2, hpos⟩ := htags b hb
    have hcearly : c2 < day := by
      rcases hpos with h | h
      · exact h
      · omega
    have hk2 : k2 = 0 := by
      have h1 := ht.2.2.1
      have h2 := ht2.2.2.1
      rw [h1] at h2
      have := Option.some.inj h2
      omega
    subst hk2
    have hceq : c2 = c := by
      have h1 := ht.2.1
      have h2 := ht2.2.1
      rw [h1] at h2
      simp only [Nat.zero_mul, Nat.add_zero] at h2
      omega
    omega
  have h := dayEmails_bound s acc day 2 htags2 hdisj hlo
  have hmaxd : 1 ≤ maxDailyBatches s := by
    rw [maxDailyBatches]
    exact (Nat.one_le_div_iff hepb).mpr hle
  obtain ⟨m, hm⟩ : ∃ m, maxDailyBatches s = m + 1 :=
    ⟨maxDailyBatches s - 1, by omega⟩
  rw [hm] at h
  have h2 : m + 1 + 1 - 2 = m := by omega
  rw [h2] at h
  have h3 : (m + 1) * s.emails_per_batch ≤ s.emails_per_day := by
    rw [← hm, maxDailyBatches]
    exact Nat.div_mul_le_self _ _
  have h4 : m * s.emails_per_batch < (m + 1) * s.emails_per_batch := by
    rw [Nat.succ_mul]
    omega
  exact lt_of_le_of_lt h (lt_of_lt_of_le h4 h3)

/-- The inner day loop preserves the tagging invariant: starting from a
state invariant at (day, daily) with the matching current time, it ends in
a state where every batch is tagged strictly below day + 1. -/
theorem genInner_inv (s : ScheduleSettings) (subject body : String)
    (attachments : List String) (day : Nat) :
    ∀ fuel t daily remaining acc,
      t = day * 1440 + startMinutes s +
        daily * s.batch_interval_minutes →
      InnerInv s day daily acc →
      InnerInv s (day + 1) 0
        (genInner s subject body attachments day fuel t daily
          remaining acc).1 := by
  intro fuel
  induction fuel with
  | zero =>
    intro t daily remaining acc ht hinv
    obtain ⟨htags, hdisj⟩ := hinv
    refine ⟨fun b hb => ?_, hdisj⟩
    obtain ⟨c, k, htag, hpos⟩ := htags b hb
    exact ⟨c, k, htag, Or.inl (by omega)⟩
  | succ n ih =>
    intro t daily remaining acc ht hinv
    obtain ⟨htags, hdisj⟩ := hinv
    simp only [genInner]
    split
    · next h =>
      obtain ⟨hrem, hdaily, hcount⟩ := h
      apply ih
      · rw [ht, Nat.succ_mul]
        ring
      · constructor
        · intro b hb
          rcases List.mem_append.mp hb with hb | hb
          · obtain ⟨c, k, htag, hpos⟩ := htags b hb
            exact ⟨c, k, htag, by omega⟩
          · rw [List.mem_singleton] at hb
            subst hb
            refine ⟨day, daily, ⟨hdaily, by rw [ht], rfl, ?_⟩, by omega⟩
            rw [List.length_take]
            exact Nat.min_le_left _ _
        · rw [TagDisjoint, List.pairwise_append]
          refine ⟨hdisj, List.pairwise_singleton _ _, ?_⟩
          intro a ha b hb
          rw [List.mem_singleton] at hb
          subst hb
          rintro ⟨hteq, hmeq⟩
          dsimp only at hteq hmeq
          obtain ⟨c, k, htag, hpos⟩ := htags a ha
          have hkd : k = daily := by
            rw [htag.2.2.1] at hmeq
            have := Option.some.inj hmeq
            omega
          subst hkd
          have hcday : c < day := by
            rcases hpos with h | h
            · exact h
            · omega
          rw [htag.2.1, ht] at hteq
          omega
    · exact ⟨fun b hb => by
        obtain ⟨c, k, htag, hpos⟩ := htags b hb
        exact ⟨c, k, htag, Or.inl (by omega)⟩, hdisj⟩

/-- The inner day loop moves recipients from the front of the queue into
the appended batches: the concatenated recipients of the output plus the
leftover queue equal those of the input. -/
theorem genInner_emails (s : ScheduleSettings) (subject body : String)
    (attachments : List String) (day : Nat) :
    ∀ fuel t daily remaining acc,
      emailsOf (genInner s subject body attachments day fuel t daily
          remaining acc).1 ++
        (genInner s subject body attachments day fuel t daily
          remaining acc).2 =
      emailsOf acc ++ remaining := by
  intro fuel
  induction fuel with
  | zero => intro t daily remaining acc; rfl
  | succ n ih =>
    intro t daily remaining acc
    simp only [genInner]
    split
    · next h =>
      rw [ih, emailsOf_append]
      simp [emailsOf, List.append_assoc, List.take_append_drop]
    · rfl

/-- The leftover queue of the inner day loop is never longer than the
input queue. -/
theorem genInner_rem_length (s : ScheduleSettings) (subject body : String)
    (attachments : List String) (day : Nat) :
    ∀ fuel t daily remaining acc,
      (genInner s subject body attachments day fuel t daily remaining
        acc).2.length ≤ remaining.length := by
  intro fuel
  induction fuel with
  | zero => intro t daily remaining acc; exact Nat.le_refl _
  | succ n ih =>
    intro t daily remaining acc
    simp only [genInner]
    split
    · next h =>
      calc (genInner s subject body attachments day n
            (t + s.batch_interval_minutes) (daily + 1)
            (remaining.drop s.emails_per_batch) _).2.length
          ≤ (remaining.drop s.emails_per_batch).length := ih _ _ _ _
        _ ≤ remaining.length := by
            rw [List.length_drop]
            omega
    · exact Nat.le_refl _

/-- When the inner day loop starts with a nonempty queue, a positive batch
budget and a day total below the cap, it consumes at least one recipient. -/
theorem genInner_progress (s : ScheduleSettings) (subject body : String)
    (attachments : List String) (day fuel t : Nat)
    (remaining : List String) (acc : List EmailBatch)
    (hfuel : 0 < fuel) (hrem : remaining ≠ [])
    (hmaxd : 0 < s.emails_per_day / s.emails_per_batch)
    (hepb : 0 < s.emails_per_batch)
    (hcount : dayEmails acc day < s.emails_per_day) :
    (genInner s subject body attachments day fuel t 0 remaining
      acc).2.length < remaining.length := by
  obtain ⟨n, rfl⟩ : ∃ n, fuel = n + 1 := ⟨fuel - 1, by omega⟩
  simp only [genInner]
  rw [if_pos ⟨hrem, hmaxd, hcount⟩]
  have h1 := genInner_rem_length s subject body attachments day n
    (t + s.batch_interval_minutes) 1 (remaining.drop s.emails_per_batch)
  have h2 : 0 < remaining.length := List.length_pos.mpr hrem
  calc (genInner s subject body attachments day n
        (t + s.batch_interval_minutes) 1
        (remaining.drop s.emails_per_batch) _).2.length
      ≤ (remaining.drop s.emails_per_batch).length := h1 _
    _ < remaining.length := by
        rw [List.length_drop]
        omega

/-- Structure of the batches the inner day loop returns: each is either an
input batch or a new batch scheduled j - daily intervals after the current
time, for some counter value daily ≤ j < maxDailyBatches. -/
theorem genInner_mem_structure (s : ScheduleSettings)
    (subject body : String) (attachments : List String) (day : Nat) :
    ∀ fuel t daily remaining acc,
      ∀ b ∈ (genInner s subject body attachments day fuel t daily
        remaining acc).1,
        b ∈ acc ∨ ∃ j, daily ≤ j ∧ j < maxDailyBatches s ∧
          b.scheduled_time = t + (j - daily) * s.batch_interval_minutes := by
  intro fuel
  induction fuel with
  | zero => intro t daily remaining acc b hb; exact Or.inl hb
  | succ n ih =>
    intro t daily remaining acc b hb
    rw [genInner] at hb
    revert hb
    split
    · next h =>
      intro hb
      rcases ih _ _ _ _ b hb with hmem | ⟨j, hj1, hj2, hteq⟩
      · rcases List.mem_append.mp hmem with hmem | hmem
        · exact Or.inl hmem
        · rw [List.mem_singleton] at hmem
          subst hmem
          exact Or.inr ⟨daily, Nat.le_refl _, h.2.1, by simp⟩
      · refine Or.inr ⟨j, by omega, hj2, ?_⟩
        obtain ⟨m, hm⟩ : ∃ m, j - daily = m + 1 := ⟨j - daily - 1, by omega⟩
        rw [hteq, show j - (daily + 1) = m from by omega, hm, Nat.succ_mul]
        ring
    · intro hb
      exact Or.inl hb

/-- Input batches survive the inner day loop. -/
theorem genInner_acc_mem (s : ScheduleSettings) (subject body : String)
    (attachments : List String) (day : Nat) :
    ∀ fuel t daily remaining acc b, b ∈ acc →
      b ∈ (genInner s subject body attachments day fuel t daily
        remaining acc).1 := by
  intro fuel
  induction fuel with
  | zero => intro t daily remaining acc b hb; exact hb
  | succ n ih =>
    intro t daily remaining acc b hb
    rw [genInner]
    split
    · next h =>
      exact ih _ _ _ _ b (List.mem_append.mpr (Or.inl hb))
    · exact hb

/-- The outer loop invariant is stable under advancing the day. -/
theorem outerInv_succ (s : ScheduleSettings) (day : Nat)
    (acc : List EmailBatch) (h : OuterInv s day acc) :
    OuterInv s (day + 1) acc := by
  obtain ⟨htags, hdisj⟩ := h
  refine ⟨fun b hb => ?_, hdisj⟩
  obtain ⟨c, k, htag, hpos⟩ := htags b hb
  exact ⟨c, k, htag, Or.inl (by omega)⟩

/-- The outer day loop turns the loop invariant into the final tagging
invariant of the produced plan. -/
theorem genOuter_final_inv (s : ScheduleSettings) (subject body : String)
    (attachments : List String) :
    ∀ fuel day remaining acc, OuterInv s day acc →
      FinalInv s
        (genOuter s subject body attachments fuel day remaining acc) := by
  intro fuel
  induction fuel with
  | zero =>
    intro day remaining acc h
    obtain ⟨htags, hdisj⟩ := h
    refine ⟨fun b hb => ?_, hdisj⟩
    obtain ⟨c, k, ht, -⟩ := htags b hb
    exact ⟨c, k, ht⟩
  | succ n ih =>
    intro day remaining acc h
    simp only [genOuter]
    split
    · obtain ⟨htags, hdisj⟩ := h
      refine ⟨fun b hb => ?_, hdisj⟩
      obtain ⟨c, k, ht, -⟩ := htags b hb
      exact ⟨c, k, ht⟩
    · split
      · exact ih _ _ _ (outerInv_succ s day acc h)
      · exact ih _ _ _ (genInner_inv s subject body attachments day _ _ 0
          remaining acc (by rw [startMinutes]; ring) h)

/-- With valid settings and enough fuel, the outer day loop drains the
whole recipient queue into the produced batches: the concatenation of the
output equals the accumulated recipients followed by the queue. -/
theorem genOuter_emails (s : ScheduleSettings) (subject body : String)
    (attachments : List String) (hepb : 0 < s.emails_per_batch)
    (hle : s.emails_per_batch ≤ s.emails_per_day)
    (hS : startMinutes s < 1440) :
    ∀ fuel day remaining acc, OuterInv s day acc →
      3 * remaining.length + 1 + weekendPad day ≤ fuel →
      emailsOf (genOuter s subject body attachments fuel day remaining acc)
        = emailsOf acc ++ remaining := by
  intro fuel
  induction fuel with
  | zero =>
    intro day remaining acc hinv hf
    omega
  | succ n ih =>
    intro day remaining acc hinv hf
    simp only [genOuter]
    split
    · next hempty =>
      rw [hempty]
      simp
    · next hne =>
      split
      · next hskip =>
        apply ih (day + 1) remaining acc (outerInv_succ s day acc hinv)
        have h5 : day % 7 = 5 ∨ day % 7 = 6 := by omega
        rcases h5 with h5 | h5
        · have hp : weekendPad day = 2 := by rw [weekendPad]; simp [h5]
          have hp6 : (day + 1) % 7 = 6 := by omega
          have hp2 : weekendPad (day + 1) = 1 := by
            rw [weekendPad]
            simp [hp6]
          omega
        · have hp : weekendPad day = 1 := by rw [weekendPad]; simp [h5]
          have hp0 : (day + 1) % 7 = 0 := by omega
          have hp2 : weekendPad (day + 1) = 0 := by
            rw [weekendPad]
            simp [hp0]
          omega
      · next hnoskip =>
        have hmaxd : 0 < s.emails_per_day / s.emails_per_batch :=
          (Nat.one_le_div_iff hepb).mpr hle
        have hcnt : dayEmails acc day < s.emails_per_day :=
          dayEmails_lt_current s acc day hS hepb hle hinv
        have hinv2 : OuterInv s (day + 1)
            (genInner s subject body attachments day
              (s.emails_per_day / s.emails_per_batch)
              (day * 1440 + (s.start_hour * 60 + s.start_minute)) 0
              remaining acc).1 :=
          genInner_inv s subject body attachments day _ _ 0 remaining acc
            (by rw [startMinutes]; ring) hinv
        have hprog := genInner_progress s subject body attachments day
          (s.emails_per_day / s.emails_per_batch)
          (day * 1440 + (s.start_hour * 60 + s.start_minute)) remaining acc
          hmaxd hne hmaxd hepb hcnt
        have hpad : weekendPad (day + 1) ≤ 2 := by
          rw [weekendPad]
          split_ifs <;> omega
        rw [ih (day + 1) _ _ hinv2 (by omega)]
        exact genInner_emails s subject body attachments day _ _ 0
          remaining acc

/-- Every batch the outer loop produces is dated no earlier than any lower
bound below the starting day that also bounds the accumulated batches. -/
theorem genOuter_day_lb (s : ScheduleSettings) (subject body : String)
    (attachments : List String) (lo : Nat) :
    ∀ fuel day remaining acc, lo ≤ day →
      (∀ b ∈ acc, lo ≤ b.scheduled_time / 1440) →
      ∀ b ∈ genOuter s subject body attachments fuel day remaining acc,
        lo ≤ b.scheduled_time / 1440 := by
  intro fuel
  induction fuel with
  | zero => intro day remaining acc hlo hacc b hb; exact hacc b hb
  | succ n ih =>
    intro day remaining acc hlo hacc b hb
    rw [genOuter] at hb
    revert hb
    split
    · intro hb; exact hacc b hb
    · split
      · intro hb
        exact ih (day + 1) remaining acc (by omega) hacc b hb
      · intro hb
        refine ih (day + 1) _ _ (by omega) ?_ b hb
        intro b2 hb2
        rcases genInner_mem_structure s subject body attachments day _ _ _
          _ _ b2 hb2 with hmem | ⟨j, hj1, hj2, hteq⟩
        · exact hacc b2 hmem
        · obtain ⟨X, hX⟩ : ∃ X, b2.scheduled_time = day * 1440 + X :=
            ⟨(s.start_hour * 60 + s.start_minute) +
              (j - 0) * s.batch_interval_minutes, by rw [hteq]; ring⟩
          have hday : day ≤ b2.scheduled_time / 1440 := by
            rw [Nat.le_div_iff_mul_le (by norm_num : (0 : Nat) < 1440)]
            omega
          omega

/-- Input batches survive the outer loop. -/
theorem genOuter_acc_mem (s : ScheduleSettings) (subject body : String)
    (attachments : List String) :
    ∀ fuel day remaining acc b, b ∈ acc →
      b ∈ genOuter s subject body attachments fuel day remaining acc := by
  intro fuel
  induction fuel with
  | zero => intro day remaining acc b hb; exact hb
  | succ n ih =>
    intro day remaining acc b hb
    rw [genOuter]
    split
    · exact hb
    · split
      · exact ih _ _ _ b hb
      · exact ih _ _ _ b
          (genInner_acc_mem s subject body attachments day _ _ _ _ _ b hb)

/-- When working_days_only holds and one day of batches stays inside the
day (no batch time crosses midnight), every produced batch is dated on a
weekday, given the accumulated batches are. -/
theorem genOuter_weekday (s : ScheduleSettings) (subject body : String)
    (attachments : List String) (hwd : s.working_days_only = true)
    (hnoov : startMinutes s + (maxDailyBatches s - 1) *
      s.batch_interval_minutes < 1440) :
    ∀ fuel day remaining acc,
      (∀ b ∈ acc, b.scheduled_time / 1440 % 7 < 5) →
      ∀ b ∈ genOuter s subject body attachments fuel day remaining acc,
        b.scheduled_time / 1440 % 7 < 5 := by
  intro fuel
  induction fuel with
  | zero => intro day remaining acc hacc b hb; exact hacc b hb
  | succ n ih =>
    intro day remaining acc hacc b hb
    rw [genOuter] at hb
    revert hb
    split
    · intro hb; exact hacc b hb
    · split
      · intro hb
        exact ih (day + 1) remaining acc hacc b hb
      · next hnoskip =>
        intro hb
        have hday : day % 7 < 5 := by
          rcases Nat.lt_or_ge (day % 7) 5 with h | h
          · exact h
          · exact absurd ⟨hwd, h⟩ hnoskip
        refine ih (day + 1) _ _ ?_ b hb
        intro b2 hb2
        rcases genInner_mem_structure s subject body attachments day _ _ _
          _ _ b2 hb2 with hmem | ⟨j, hj1, hj2, hteq⟩
        · exact hacc b2 hmem
        · have hX : b2.scheduled_time = day * 1440 +
              (startMinutes s + (j - 0) * s.batch_interval_minutes) := by
            rw [hteq, startMinutes]
            ring
          have hjle : (j - 0) * s.batch_interval_minutes ≤
              (maxDailyBatches s - 1) * s.batch_interval_minutes :=
            Nat.mul_le_mul_right _ (by omega)
          have hin : startMinutes s + (j - 0) * s.batch_interval_minutes <
              1440 := by omega
          rw [hX, day_of_time, Nat.div_eq_of_lt hin]
          simpa using hday

/-- A nonempty queue, positive batch budget and room on the current day
guarantee the inner loop creates a batch scheduled exactly at the passed
current time, and that batch survives into the result. -/
theorem genInner_first_batch (s : ScheduleSettings) (subject body : String)
    (attachments : List String) (day fuel t : Nat)
    (remaining : List String) (acc : List EmailBatch)
    (hfuel : 0 < fuel) (hrem : remaining ≠ [])
    (hmaxd : 0 < s.emails_per_day / s.emails_per_batch)
    (hcnt : dayEmails acc day < s.emails_per_day) :
    ∃ b ∈ (genInner s subject body attachments day fuel t 0 remaining
      acc).1, b.scheduled_time = t := by
  obtain ⟨n, rfl⟩ : ∃ n, fuel = n + 1 := ⟨fuel - 1, by omega⟩
  simp only [genInner]
  rw [if_pos ⟨hrem, hmaxd, hcnt⟩]
  exact ⟨_, genInner_acc_mem s subject body attachments day n _ _ _ _ _
    (List.mem_append.mpr (Or.inr (List.mem_singleton.mpr rfl))), rfl⟩

/-- One non-skipped outer step with room on its day puts a batch scheduled
at that day into the final plan. -/
theorem genOuter_first_batch (s : ScheduleSettings) (subject body : String)
    (attachments : List String) (fuel day : Nat)
    (remaining : List String) (acc : List EmailBatch)
    (hfuel : 0 < fuel) (hrem : remaining ≠ [])
    (hmaxd : 0 < s.emails_per_day / s.emails_per_batch)
    (hcnt : dayEmails acc day < s.emails_per_day)
    (hnoskip : ¬(s.working_days_only = true ∧ 5 ≤ day % 7)) :
    ∃ b ∈ genOuter s subject body attachments fuel day remaining acc,
      b.scheduled_time =
        day * 1440 + (s.start_hour * 60 + s.start_minute) := by
  obtain ⟨F, rfl⟩ : ∃ F, fuel = F + 1 := ⟨fuel - 1, by omega⟩
  simp only [genOuter]
  rw [if_neg hrem, if_neg hnoskip]
  obtain ⟨b, hbmem, hbt⟩ := genInner_first_batch s subject body attachments
    day (s.emails_per_day / s.emails_per_batch)
    (day * 1440 + (s.start_hour * 60 + s.start_minute)) remaining acc
    hmaxd hrem hmaxd hcnt
  exact ⟨b, genOuter_acc_mem s subject body attachments F (day + 1) _ _ b
    hbmem, hbt⟩

/-- The anchor day _get_next_working_day returns is always a weekday,
whatever the settings. -/
theorem getNextWorkingDay_weekday (today : Nat) :
    getNextWorkingDay today % 7 < 5 := by
  simp only [getNextWorkingDay]
  split_ifs <;> omega

/-- Claim C1: for every recipient list and valid capacity settings
(emails_per_batch positive and at most emails_per_day), every batch of the
generated plan holds at most emails_per_batch recipients, and the
recipients of the batches scheduled on any one calendar day sum to at most
emails_per_day. -/
theorem c1_planner_caps (emails : List String) (subject body : String)
    (attachments : List String) (s : ScheduleSettings) (today : Nat)
    (_h1 : 0 < s.emails_per_batch)
    (_h2 : s.emails_per_batch ≤ s.emails_per_day) :
    (∀ b ∈ generate_batches emails subject body attachments s today,
      b.emails.length ≤ s.emails_per_batch) ∧
    (∀ D, dayEmails (generate_batches emails subject body attachments s
      today) D ≤ s.emails_per_day) := by
  have hfin : FinalInv s
      (generate_batches emails subject body attachments s today) := by
    rw [generate_batches]
    exact genOuter_final_inv s subject body attachments _ _ emails []
      ⟨fun b hb => absurd hb (List.not_mem_nil b), List.Pairwise.nil⟩
  constructor
  · intro b hb
    obtain ⟨c, k, ht⟩ := hfin.1 b hb
    exact ht.2.2.2
  · intro D
    calc dayEmails (generate_batches emails subject body attachments s
          today) D
        ≤ maxDailyBatches s * s.emails_per_batch :=
          dayEmails_le_of_final s _ hfin D
      _ ≤ s.emails_per_day := by
          rw [maxDailyBatches]
          exact Nat.div_mul_le_self _ _

/-- Witness for c1_planner_caps at the concrete 25-recipient example. -/
theorem c1_planner_caps_witness :
    0 < exampleSettings.emails_per_batch ∧
    exampleSettings.emails_per_batch ≤ exampleSettings.emails_per_day ∧
    dayEmails (generate_batches sampleRecipients "subject" "body" []
      exampleSettings 0) 1 ≤ exampleSettings.emails_per_day :=
  ⟨by decide, by decide,
    (c1_planner_caps sampleRecipients "subject" "body" [] exampleSettings 0
      (by decide) (by decide)).2 1⟩

/-- Claim C2: for every recipient list and valid settings (positive batch
size at most the daily cap, start time a valid HH:MM), the concatenation
of the recipient slices of the generated batches, in batch order, equals
the input list: an order-preserving partition into contiguous slices with
nothing dropped or duplicated. -/
theorem c2_planner_partition (emails : List String) (subject body : String)
    (attachments : List String) (s : ScheduleSettings) (today : Nat)
    (h1 : 0 < s.emails_per_batch)
    (h2 : s.emails_per_batch ≤ s.emails_per_day)
    (h3 : s.start_hour < 24) (h4 : s.start_minute < 60) :
    emailsOf (generate_batches emails subject body attachments s today) =
      emails := by
  have hS : startMinutes s < 1440 := by rw [startMinutes]; omega
  have hpad : weekendPad (getNextWorkingDay today) ≤ 2 := by
    rw [weekendPad]
    split_ifs <;> omega
  rw [generate_batches]
  rw [genOuter_emails s subject body attachments h1 h2 hS
    (3 * emails.length + 3) (getNextWorkingDay today) emails []
    ⟨fun b hb => absurd hb (List.not_mem_nil b), List.Pairwise.nil⟩
    (by omega)]
  rfl

/-- Witness for c2_planner_partition at the concrete 25-recipient
example. -/
theorem c2_planner_partition_witness :
    0 < exampleSettings.emails_per_batch ∧
    exampleSettings.emails_per_batch ≤ exampleSettings.emails_per_day ∧
    exampleSettings.start_hour < 24 ∧ exampleSettings.start_minute < 60 ∧
    emailsOf (generate_batches sampleRecipients "subject" "body" []
      exampleSettings 0) = sampleRecipients :=
  ⟨by decide, by decide, by decide, by decide,
    c2_planner_partition sampleRecipients "subject" "body" []
      exampleSettings 0 (by decide) (by decide) (by decide) (by decide)⟩

/-- Claim C7 as amended: when working_days_only holds and the day plan
stays inside the day (start minute plus the spacing of the last possible
batch stays below midnight, as with every valid daytime configuration), no
generated batch has a scheduled time on a Saturday or Sunday.  (The
counterexample c7_weekend_cex shows the claim fails without the
no-midnight-crossing condition.) -/
theorem c7_weekend_amended (emails : List String) (subject body : String)
    (attachments : List String) (s : ScheduleSettings) (today : Nat)
    (hwd : s.working_days_only = true)
    (hnoov : startMinutes s + (maxDailyBatches s - 1) *
      s.batch_interval_minutes < 1440) :
    ∀ b ∈ generate_batches emails subject body attachments s today,
      b.scheduled_time / 1440 % 7 < 5 := by
  rw [generate_batches]
  exact genOuter_weekday s subject body attachments hwd hnoov _ _ emails []
    (fun b hb => absurd hb (List.not_mem_nil b))

/-- Witness for c7_weekend_amended: the head batch of a concrete weekday
plan is dated on a weekday. -/
theorem c7_weekend_amended_witness :
    weekdaySettings.working_days_only = true ∧
    startMinutes weekdaySettings + (maxDailyBatches weekdaySettings - 1) *
      weekdaySettings.batch_interval_minutes < 1440 ∧
    ((generate_batches tenRecipients "s" "b" [] weekdaySettings
      0).head?.getD dummyBatch).scheduled_time / 1440 % 7 < 5 :=
  ⟨rfl, by decide,
    c7_weekend_amended tenRecipients "s" "b" [] weekdaySettings 0 rfl
      (by decide) _ (by decide)⟩

/-- Claim C9: whatever the settings (working_days_only included), the
anchor day is computed by _get_next_working_day, which skips Saturdays and
Sundays unconditionally; hence the first calendar day carrying a batch is
always a weekday: every batch is dated at or after the anchor day, some
batch is dated exactly on it, and the anchor day is a weekday. -/
theorem c9_first_day_weekday (emails : List String) (subject body : String)
    (attachments : List String) (s : ScheduleSettings) (today : Nat)
    (hne : emails ≠ []) (h1 : 0 < s.emails_per_batch)
    (h2 : s.emails_per_batch ≤ s.emails_per_day)
    (h3 : s.start_hour < 24) (h4 : s.start_minute < 60) :
    getNextWorkingDay today % 7 < 5 ∧
    (∀ b ∈ generate_batches emails subject body attachments s today,
      getNextWorkingDay today ≤ b.scheduled_time / 1440) ∧
    (∃ b ∈ generate_batches emails subject body attachments s today,
      b.scheduled_time / 1440 = getNextWorkingDay today) := by
  have hanchor := getNextWorkingDay_weekday today
  refine ⟨hanchor, ?_, ?_⟩
  · rw [generate_batches]
    exact genOuter_day_lb s subject body attachments
      (getNextWorkingDay today) _ _ emails [] (Nat.le_refl _)
      (fun b hb => absurd hb (List.not_mem_nil b))
  · have hmaxd : 0 < s.emails_per_day / s.emails_per_batch :=
      (Nat.one_le_div_iff h1).mpr h2
    have hcnt : dayEmails ([] : List EmailBatch)
        (getNextWorkingDay today) < s.emails_per_day := by
      have : dayEmails ([] : List EmailBatch) (getNextWorkingDay today)
          = 0 := by simp [dayEmails]
      omega
    obtain ⟨b, hbmem, hbt⟩ := genOuter_first_batch s subject body
      attachments (3 * emails.length + 3) (getNextWorkingDay today)
      emails [] (by omega) hne hmaxd hcnt
      (by intro hc; omega)
    refine ⟨b, by rw [generate_batches]; exact hbmem, ?_⟩
    rw [hbt, day_of_time,
      Nat.div_eq_of_lt (show s.start_hour * 60 + s.start_minute < 1440
        from by omega)]
    omega

/-- Witness for c9_first_day_weekday at the concrete 25-recipient
example. -/
theorem c9_first_day_weekday_witness :
    sampleRecipients ≠ [] ∧
    0 < exampleSettings.emails_per_batch ∧
    exampleSettings.emails_per_batch ≤ exampleSettings.emails_per_day ∧
    exampleSettings.start_hour < 24 ∧ exampleSettings.start_minute < 60 ∧
    getNextWorkingDay 0 % 7 < 5 :=
  ⟨by decide, by decide, by decide, by decide, by decide,
    (c9_first_day_weekday sampleRecipients "subject" "body" []
      exampleSettings 0 (by decide) (by decide) (by decide) (by decide)
      (by decide)).1⟩

/-- Claim C3: with 25 recipients, emails_per_day = 10, emails_per_batch = 5,
start_time 09:00, batch interval 5 minutes and working_days_only = false,
the planner yields exactly 5 batches over 3 consecutive days: two batches
of 5 at 09:00 (minute 540) and 09:05 (minute 545) on each of the first two
days and one batch of 5 at 09:00 on the third day.  Anchoring today at day
0 (a Monday), the anchor day is day 1 and the batches land on days 1, 1, 2,
2, 3. -/
theorem c3_concrete_plan :
    getNextWorkingDay 0 = 1 ∧
    (generate_batches sampleRecipients "subject" "body" [] exampleSettings
        0).map
      (fun b => (b.emails.length, b.scheduled_time / 1440,
        b.scheduled_time % 1440)) =
    [(5, 1, 540), (5, 1, 545), (5, 2, 540), (5, 2, 545), (5, 3, 540)] := by
  decide

/-- Claim C8: create_schedule with an empty recipient list fails with the
message of line 119 of scheduler_manager.py and returns the scheduler state
unchanged: no current schedule installed, no batches created, nothing
persisted. -/
theorem c8_empty_recipients (st : SchedulerState) (subject body : String)
    (attachments : List String) (s : ScheduleSettings) (today newId : Nat) :
    (create_schedule st [] subject body attachments s today newId).1.success
        = false ∧
    (create_schedule st [] subject body attachments s today newId).1.message
        = "No emails provided for scheduling" ∧
    (create_schedule st [] subject body attachments s today newId).2 = st := by
  simp [create_schedule]

/-- Counterexample to claim C4 as stated: with the default config settings
(retry enabled, retry_attempts = 3) a fresh batch whose every dispatch
fails is dispatched and fails exactly 3 = retry_attempts times in total,
not retry_attempts + 1 times: the guard attempts < retry_attempts runs
after attempts has been incremented, so the last created retry carries
attempts = retry_attempts - 1 and its own failure ends the chain. -/
theorem c4_retry_exhaustion_cex :
    (retryChain defaultConfig 100 2 "boom" freshFailingBatch).length =
      defaultConfig.retry_attempts ∧
    (retryChain defaultConfig 100 2 "boom" freshFailingBatch).length ≠
      defaultConfig.retry_attempts + 1 := by
  decide

/-- Counterexample to claim C5 as stated: for the failed batch failedB
(attempts = 1 < max_retry_attempts = 3, retries enabled everywhere) the
retry path does produce a batch, but its scheduled_time is now +
config_manager retry_delay_minutes = now + 30, not now + the retry delay
of the schedule settings (retry_delay_hours = 1 hour, 60 minutes), and its
attempt count equals failedB.attempts = 1, not failedB.attempts + 1. -/
theorem c5_retry_fields_cex :
    failedB.attempts < defaultScheduleSettings.max_retry_attempts ∧
    defaultScheduleSettings.retry_failed_batches = true ∧
    defaultConfig.retry_failed_emails = true ∧
    (retryDecision defaultConfig 10000 6 failedB).map
      (fun r => (r.scheduled_time, r.attempts)) = some (10030, 1) ∧
    (10030 : Nat) ≠ 10000 + 60 * defaultScheduleSettings.retry_delay_hours ∧
    (1 : Nat) ≠ failedB.attempts + 1 := by
  decide

/-- Claim C5 as amended: when the config manager settings enable retries
and the failed batch b has attempts < config retry_attempts, the retry
path produces a batch cloning the recipients, content and attachments of
b, pending, with attempt count equal to b.attempts (the counter that
already includes the failure being handled), scheduled at now + the config
manager retry_delay_minutes (not a delay of the schedule settings
snapshot), and metadata links it to the batch id of b; otherwise no retry
batch is produced. -/
theorem c5_retry_fields_amended (cfg : ConfigScheduleSettings)
    (now newId : Nat) (b : EmailBatch) :
    (cfg.retry_failed_emails = true → b.attempts < cfg.retry_attempts →
      (retryDecision cfg now newId b).map
        (fun r => (r.emails, r.subject, r.body, r.attachments,
          r.scheduled_time, r.attempts, r.status, r.meta_is_retry,
          r.meta_original_batch_id)) =
      some (b.emails, b.subject, b.body, b.attachments,
        now + cfg.retry_delay_minutes, b.attempts, "pending", true,
        some b.batch_id)) ∧
    (¬(cfg.retry_failed_emails = true ∧ b.attempts < cfg.retry_attempts) →
      retryDecision cfg now newId b = none) := by
  constructor
  · intro h1 h2
    simp [retryDecision, scheduleRetry, h1, h2]
  · intro h
    simp [retryDecision, h]

/-- Witness for c5_retry_fields_amended at the concrete batch failedB with
the default config settings. -/
theorem c5_retry_fields_amended_witness :
    defaultConfig.retry_failed_emails = true ∧
    failedB.attempts < defaultConfig.retry_attempts ∧
    (retryDecision defaultConfig 10000 6 failedB).map
      (fun r => (r.emails, r.subject, r.body, r.attachments,
        r.scheduled_time, r.attempts, r.status, r.meta_is_retry,
        r.meta_original_batch_id)) =
    some (failedB.emails, failedB.subject, failedB.body, failedB.attachments,
      10000 + defaultConfig.retry_delay_minutes, failedB.attempts, "pending",
      true, some failedB.batch_id) :=
  ⟨rfl, by decide,
    (c5_retry_fields_amended defaultConfig 10000 6 failedB).1 rfl (by decide)⟩

/-- Every element of a failure chain, in terms of the fuel recursion: with
retries enabled and enough fuel, the chain of a batch has length
max (retry_attempts - attempts) 1, every element is in status failed, and
the final element has exhausted the attempt budget. -/
theorem retryChainFuel_spec (cfg : ConfigScheduleSettings)
    (now newId : Nat) (e : String) (hEn : cfg.retry_failed_emails = true) :
    ∀ fuel b, cfg.retry_attempts - b.attempts < fuel →
      (retryChainFuel cfg now newId e fuel b).length =
        max (cfg.retry_attempts - b.attempts) 1 ∧
      (∀ fb ∈ retryChainFuel cfg now newId e fuel b,
        fb.status = "failed") ∧
      (∀ lastb,
        (retryChainFuel cfg now newId e fuel b).getLast? = some lastb →
          cfg.retry_attempts ≤ lastb.attempts) := by
  intro fuel
  induction fuel with
  | zero => intro b hb; omega
  | succ n ih =>
    intro b hb
    by_cases hlt : b.attempts + 1 < cfg.retry_attempts
    · have hstep :
          retryChainFuel cfg now newId e (n + 1) b =
            failedBatchUpdate e b ::
              retryChainFuel cfg now newId e n
                (scheduleRetry cfg now newId (failedBatchUpdate e b)) := by
        simp [retryChainFuel, handleBatchFailure, retryDecision,
          failedBatchUpdate, hEn, hlt]
      have hatt :
          (scheduleRetry cfg now newId (failedBatchUpdate e b)).attempts =
            b.attempts + 1 := by
        simp [scheduleRetry, failedBatchUpdate]
      obtain ⟨ihl, ihs, ihlast⟩ :=
        ih (scheduleRetry cfg now newId (failedBatchUpdate e b))
          (by rw [hatt]; omega)
      refine ⟨?_, ?_, ?_⟩
      · rw [hstep]
        simp only [List.length_cons, ihl, hatt]
        omega
      · intro fb hfb
        rw [hstep] at hfb
        rcases List.mem_cons.mp hfb with h | h
        · subst h; simp [failedBatchUpdate]
        · exact ihs fb h
      · intro lastb hl
        rw [hstep] at hl
        have hne : retryChainFuel cfg now newId e n
            (scheduleRetry cfg now newId (failedBatchUpdate e b)) ≠ [] := by
          intro hnil
          rw [hnil] at ihl
          simp at ihl
          omega
        obtain ⟨x, xs, hx⟩ := List.exists_cons_of_ne_nil hne
        rw [hx] at hl ihlast
        rw [List.getLast?_cons_cons] at hl
        exact ihlast lastb hl
    · have hstep :
          retryChainFuel cfg now newId e (n + 1) b =
            [failedBatchUpdate e b] := by
        simp [retryChainFuel, handleBatchFailure, retryDecision,
          failedBatchUpdate, hEn, hlt]
      refine ⟨?_, ?_, ?_⟩
      · rw [hstep]; simp [failedBatchUpdate]; omega
      · intro fb hfb
        rw [hstep] at hfb
        simp at hfb
        subst hfb; simp [failedBatchUpdate]
      · intro lastb hl
        rw [hstep] at hl
        simp at hl
        subst hl
        simp [failedBatchUpdate]
        omega

/-- Claim C4 as amended: with retries enabled and retry_attempts at least
one, a fresh batch whose every dispatch fails is dispatched and fails
exactly retry_attempts times in total (the original failure plus
retry_attempts - 1 replayed retry batches); every batch of the chain ends
in the terminal failed status, and the retry guard declines to produce any
further retry after the last failure. -/
theorem c4_retry_exhaustion_amended (cfg : ConfigScheduleSettings)
    (now newId : Nat) (e : String) (b : EmailBatch)
    (hEn : cfg.retry_failed_emails = true) (hfresh : b.attempts = 0)
    (hmax : 1 ≤ cfg.retry_attempts) :
    (retryChain cfg now newId e b).length = cfg.retry_attempts ∧
    (∀ fb ∈ retryChain cfg now newId e b, fb.status = "failed") ∧
    (∀ lastb, (retryChain cfg now newId e b).getLast? = some lastb →
      retryDecision cfg now newId lastb = none) := by
  have hfuel : cfg.retry_attempts - b.attempts < cfg.retry_attempts + 1 := by
    omega
  obtain ⟨hl, hs, hlast⟩ :=
    retryChainFuel_spec cfg now newId e hEn (cfg.retry_attempts + 1) b hfuel
  refine ⟨?_, hs, ?_⟩
  · rw [retryChain, hl, hfresh]
    omega
  · intro lastb hlb
    have hge := hlast lastb hlb
    simp [retryDecision]
    omega

/-- Witness for c4_retry_exhaustion_amended at the default config settings
and the concrete fresh batch. -/
theorem c4_retry_exhaustion_amended_witness :
    defaultConfig.retry_failed_emails = true ∧
    freshFailingBatch.attempts = 0 ∧
    1 ≤ defaultConfig.retry_attempts ∧
    (retryChain defaultConfig 100 2 "boom" freshFailingBatch).length =
      defaultConfig.retry_attempts :=
  ⟨rfl, rfl, by decide,
    (c4_retry_exhaustion_amended defaultConfig 100 2 "boom" freshFailingBatch
      rfl rfl (by decide)).1⟩

/-- Claim C6: for a running scheduler whose active list holds the pending
batches and whose completed and failed lists hold no pending batch,
stop_schedule succeeds, empties the active list, appends every active
batch as a cancelled copy to the failed list (so every batch that was
pending is cancelled), leaves the completed and previously failed batches
untouched (so sent and failed batches keep their status), leaves no batch
pending anywhere, and marks the schedule stopped. -/
theorem c6_stop_invariant (st : SchedulerState) (sd : ScheduleData)
    (hrun : st.is_running = true)
    (hcs : st.current_schedule = some sd)
    (hact : ∀ b ∈ st.active_batches, b.status = "pending")
    (hdone : ∀ b ∈ st.completed_batches ++ st.failed_batches,
      b.status ≠ "pending") :
    (stop_schedule st).1 = true ∧
    (stop_schedule st).2.active_batches = [] ∧
    (stop_schedule st).2.completed_batches = st.completed_batches ∧
    (stop_schedule st).2.failed_batches = st.failed_batches ++
      st.active_batches.map (fun b => { b with status := "cancelled" }) ∧
    (∀ b ∈ st.active_batches, b.status = "pending" →
      { b with status := "cancelled" } ∈
        (stop_schedule st).2.failed_batches) ∧
    (∀ b ∈ (stop_schedule st).2.active_batches ++
        (stop_schedule st).2.completed_batches ++
        (stop_schedule st).2.failed_batches, b.status ≠ "pending") ∧
    (∀ b ∈ st.active_batches ++ st.completed_batches ++ st.failed_batches,
      b.status = "sent" ∨ b.status = "failed" →
        b ∈ (stop_schedule st).2.completed_batches ++
          (stop_schedule st).2.failed_batches) ∧
    (stop_schedule st).2.current_schedule =
      some { sd with status := "stopped" } := by
  have hstop : stop_schedule st =
      (true,
       { st with
         is_running := false,
         current_schedule :=
           st.current_schedule.map fun x => { x with status := "stopped" },
         failed_batches :=
           st.failed_batches ++
             st.active_batches.map fun b => { b with status := "cancelled" },
         active_batches := [] }) := by
    simp [stop_schedule, hrun]
  refine ⟨by rw [hstop], by rw [hstop], by rw [hstop], by rw [hstop],
    ?_, ?_, ?_, ?_⟩
  · intro b hb _
    rw [hstop]
    simp only [List.mem_append, List.mem_map]
    exact Or.inr ⟨b, hb, rfl⟩
  · intro b hb
    rw [hstop] at hb
    simp only [List.nil_append, List.mem_append, List.mem_map] at hb
    rcases hb with h | h | ⟨a, _, ha⟩
    · exact hdone b (List.mem_append.mpr (Or.inl h))
    · exact hdone b (List.mem_append.mpr (Or.inr h))
    · rw [← ha]; simp
  · intro b hb hsf
    rw [hstop]
    simp only [List.mem_append] at hb ⊢
    rcases hb with (h | h) | h
    · have := hact b h
      rcases hsf with h2 | h2 <;> rw [this] at h2 <;> simp at h2
    · exact Or.inl h
    · exact Or.inr (Or.inl h)
  · rw [hstop]; simp [hcs]

/-- Witness for c6_stop_invariant at the concrete running state stEx. -/
theorem c6_stop_invariant_witness :
    stEx.is_running = true ∧
    (stop_schedule stEx).1 = true ∧
    (stop_schedule stEx).2.active_batches = [] ∧
    (stop_schedule stEx).2.completed_batches = stEx.completed_batches :=
  ⟨rfl,
    (c6_stop_invariant stEx sdEx rfl rfl (by decide) (by decide)).1,
    (c6_stop_invariant stEx sdEx rfl rfl (by decide) (by decide)).2.1,
    (c6_stop_invariant stEx sdEx rfl rfl (by decide) (by decide)).2.2.1⟩

/-- Claim C10: stop_schedule appends every cancelled batch to the failed
collection, and the status snapshot that get_current_schedule_status then
returns counts them inside failed_batches (its failed count is the old
failed count plus the number of batches cancelled by stop, its pending
count is zero, and it carries no separate cancelled count). -/
theorem c10_cancelled_in_failed (st : SchedulerState) (sd : ScheduleData)
    (hrun : st.is_running = true) (hcs : st.current_schedule = some sd) :
    (stop_schedule st).2.failed_batches = st.failed_batches ++
      st.active_batches.map (fun b => { b with status := "cancelled" }) ∧
    (get_current_schedule_status (stop_schedule st).2).map
      (fun snap => (snap.failed_batches, snap.pending_batches)) =
      some (st.failed_batches.length + st.active_batches.length, 0) := by
  constructor
  · simp [stop_schedule, hrun]
  · simp [stop_schedule, get_current_schedule_status, hrun, hcs]

/-- Witness for c10_cancelled_in_failed at the concrete running state. -/
theorem c10_cancelled_in_failed_witness :
    stEx.is_running = true ∧
    (get_current_schedule_status (stop_schedule stEx).2).map
      (fun snap => (snap.failed_batches, snap.pending_batches)) =
      some (stEx.failed_batches.length + stEx.active_batches.length, 0) :=
  ⟨rfl, (c10_cancelled_in_failed stEx sdEx rfl rfl).2⟩

/-- Counterexample to claim C7 as stated: with working_days_only = true,
start_time 23:59 and a 5 minute interval, anchoring on a Thursday (day 3)
makes the planner work on Friday (day 4, weekday 4), but the second batch
of that day is scheduled at 00:04 of Saturday (weekday 5): a batch whose
scheduled_time falls on a Saturday. -/
theorem c7_weekend_cex :
    lateSettings.working_days_only = true ∧
    (generate_batches tenRecipients "s" "b" [] lateSettings 3).map
      (fun b => b.scheduled_time / 1440 % 7) = [4, 5] := by
  decide

end EmailScheduler
